import Mathlib

/-!
Verification of the reading-normalization step of AgriMonitor
(src/realtime_visualization.py, function fetch_data, plus the
latest_data selection in the dashboard and chat views).

The embedding models the pandas pipeline of fetch_data lines 53-67:

* raw DynamoDB items are association lists from column name to a raw
  cell value (a number, a text, or a null/missing-equivalent);
* pd.DataFrame(items) gives the frame the union of all keys appearing
  in any item; a row lacking a key holds NA in that column;
* pd.to_numeric(..., errors='coerce') on the six sensor columns and
  pd.to_datetime(..., errors='coerce') on the timestamp column turn
  unconvertible cells into NA instead of raising;
* df.dropna() removes every row holding NA in ANY column (the seven
  named ones after coercion, and any extra column at its raw value);
* df.sort_values('timestamp') orders rows by ascending timestamp.

Numeric cells are modelled exactly as scaled decimals (mantissa and
power-of-ten exponent over the integers) rather than binary floats;
timestamps are integer nanoseconds since the Unix epoch, the resolution
pandas itself uses.  pandas' default sort kind is quicksort, which
guarantees only a sorted permutation of the rows; the executable model
uses insertion sort, and no theorem below about the sorted output
depends on how rows with equal timestamps are ordered, except where
explicitly discussed.
-/

namespace AgriMonitor

/-- An exact decimal value man * 10 ^ exp, the model of a numeric cell
(DynamoDB returns decimal numbers; the coerced columns hold them). -/
structure Dec where
  man : ℤ
  exp : ℤ
deriving DecidableEq, Repr

/-- A raw cell value as it comes out of the table scan: already numeric,
text, or a null/missing-equivalent (rendered as NA in the frame). -/
inductive RawVal where
  | num (d : Dec)
  | text (s : String)
  | null
deriving DecidableEq, Repr

/-- A raw item from the table scan: a mapping from column name to raw
cell value, modelled as an association list (first binding wins). -/
abbrev RawRecord := List (String × RawVal)

/-- A validated output row: the seven coerced columns of a surviving
row of the frame.  The timestamp is in integer nanoseconds since the
Unix epoch. -/
structure Reading where
  timestamp : ℤ
  temperature : Dec
  humidity : Dec
  soil_moisture : Dec
  soil_nitrogen : Dec
  soil_phosphorus : Dec
  soil_potassium : Dec
deriving DecidableEq, Repr

/-- Numeric value of a decimal digit character. -/
def digitVal (c : Char) : ℕ := c.toNat - 48

/-- Value of a list of decimal digit characters, most significant first. -/
def digitsVal (cs : List Char) : ℕ := cs.foldl (fun a c => 10 * a + digitVal c) 0

/-- Split a leading sign off a character list; true means negative. -/
def splitSign : List Char → Bool × List Char
  | '-' :: cs => (true, cs)
  | '+' :: cs => (false, cs)
  | cs => (false, cs)

/-- Parse an unsigned decimal mantissa: integer digits, optionally a
point and fraction digits, at least one digit in total.  Returns the
digits' value, the number of fraction digits, and the rest of the
input. -/
def parseMantissa (cs : List Char) : Option (ℕ × ℕ × List Char) :=
  let ip := cs.takeWhile Char.isDigit
  let rest := cs.dropWhile Char.isDigit
  match rest with
  | '.' :: cs2 =>
    let fp := cs2.takeWhile Char.isDigit
    let rest2 := cs2.dropWhile Char.isDigit
    if ip.isEmpty && fp.isEmpty then none
    else some (digitsVal (ip ++ fp), fp.length, rest2)
  | _ => if ip.isEmpty then none else some (digitsVal ip, 0, rest)

/-- Parse an optional exponent suffix (e or E, optional sign, digits)
that must consume the whole rest of the input; no suffix means
exponent zero. -/
def parseExponentVal : List Char → Option ℤ
  | [] => some 0
  | c :: cs =>
    if c = 'e' ∨ c = 'E' then
      let (neg, cs2) := splitSign cs
      let ds := cs2.takeWhile Char.isDigit
      let rest := cs2.dropWhile Char.isDigit
      if ds.isEmpty || !rest.isEmpty then none
      else some (if neg then -(digitsVal ds : ℤ) else (digitsVal ds : ℤ))
    else none

/-- Parse a decimal numeral text (optional sign, digits, optional
fraction, optional exponent) into an exact decimal; fails on anything
else, the way float conversion of a non-numeric text fails. -/
def parseNumericText (s : String) : Option Dec := do
  let cs := s.toList
  let (neg, cs1) := splitSign cs
  let (man, flen, rest) ← parseMantissa cs1
  let e ← parseExponentVal rest
  pure ⟨if neg then -(man : ℤ) else (man : ℤ), e - (flen : ℤ)⟩

/-- Model of pd.to_numeric(x, errors='coerce') on one cell of a sensor
column; none is NA.  A missing key (the row lacks the column) is NA
before coercion and stays NA; a null cell coerces to NA; a non-numeric
text coerces to NA. -/
def toNumeric : Option RawVal → Option Dec
  | some (RawVal.num d) => some d
  | some (RawVal.text s) => parseNumericText s
  | some RawVal.null => none
  | none => none

/-- Gregorian leap-year rule. -/
def isLeapYear (y : ℕ) : Bool := (y % 4 == 0 && y % 100 != 0) || y % 400 == 0

/-- Number of days in a month. -/
def daysInMonth (y mo : ℕ) : ℕ :=
  if mo = 2 then (if isLeapYear y then 29 else 28)
  else if mo = 4 ∨ mo = 6 ∨ mo = 9 ∨ mo = 11 then 30
  else 31

/-- Julian day number of a Gregorian calendar date. -/
def jdn (y mo d : ℕ) : ℕ :=
  let a := (14 - mo) / 12
  let y2 := y + 4800 - a
  let m2 := mo + 12 * a - 3
  d + (153 * m2 + 2) / 5 + 365 * y2 + y2 / 4 - y2 / 100 + y2 / 400 - 32045

/-- Nanoseconds since the Unix epoch of a calendar date and time. -/
def epochNs (y mo d hh mi ss : ℕ) : ℤ :=
  (((jdn y mo d : ℤ) - 2440588) * 86400 + (hh : ℤ) * 3600 + (mi : ℤ) * 60 + (ss : ℤ))
    * 1000000000

/-- Read exactly n decimal digit characters into their value. -/
def readNDigits : ℕ → List Char → Option (ℕ × List Char)
  | 0, cs => some (0, cs)
  | _ + 1, [] => none
  | n + 1, c :: cs =>
    if c.isDigit then
      match readNDigits n cs with
      | some (v, rest) => some (digitVal c * 10 ^ n + v, rest)
      | none => none
    else none

/-- Consume one expected character. -/
def expectChar (c : Char) : List Char → Option (List Char)
  | c2 :: cs => if c2 = c then some cs else none
  | [] => none

/-- Validate a calendar date and time and convert it to epoch
nanoseconds; out-of-range components fail the parse. -/
def mkTimestamp (y mo d hh mi ss : ℕ) : Option ℤ :=
  if 1 ≤ mo ∧ mo ≤ 12 ∧ 1 ≤ d ∧ d ≤ daysInMonth y mo ∧ hh ≤ 23 ∧ mi ≤ 59 ∧ ss ≤ 59 then
    some (epochNs y mo d hh mi ss)
  else none

/-- Parse an ISO-8601 date or date-time text (YYYY-MM-DD, optionally
followed by T or a space and HH:MM:SS) into epoch nanoseconds; fails on
anything else. -/
def parseTimestampText (s : String) : Option ℤ := do
  let cs := s.toList
  let (y, cs1) ← readNDigits 4 cs
  let cs2 ← expectChar '-' cs1
  let (mo, cs3) ← readNDigits 2 cs2
  let cs4 ← expectChar '-' cs3
  let (d, cs5) ← readNDigits 2 cs4
  match cs5 with
  | [] => mkTimestamp y mo d 0 0 0
  | sep :: cs6 =>
    if sep = 'T' ∨ sep = ' ' then do
      let (hh, cs7) ← readNDigits 2 cs6
      let cs8 ← expectChar ':' cs7
      let (mi, cs9) ← readNDigits 2 cs8
      let cs10 ← expectChar ':' cs9
      let (ss, cs11) ← readNDigits 2 cs10
      if cs11.isEmpty then mkTimestamp y mo d hh mi ss else none
    else none

/-- Whole nanoseconds of an exact decimal (floor), for numeric
timestamp cells, which pandas reads with its default nanosecond unit. -/
def decToNs (d : Dec) : ℤ :=
  if 0 ≤ d.exp then d.man * 10 ^ d.exp.toNat
  else Int.ediv d.man (10 ^ (-d.exp).toNat)

/-- Model of pd.to_datetime(x, errors='coerce') on one timestamp cell;
none is NaT.  Text parses as an ISO date or date-time; a numeric cell
is an epoch offset in the default nanosecond unit; a null or missing
cell is NaT. -/
def toDatetime : Option RawVal → Option ℤ
  | some (RawVal.num d) => some (decToNs d)
  | some (RawVal.text s) => parseTimestampText s
  | some RawVal.null => none
  | none => none

/-- The six sensor columns coerced on line 62 of the source. -/
def numericCols : List String :=
  ["temperature", "humidity", "soil_moisture", "soil_nitrogen",
   "soil_phosphorus", "soil_potassium"]

/-- The seven named columns of the data model. -/
def sevenFields : List String := "timestamp" :: numericCols

/-- Cell of one raw item in one column; none when the item lacks the
key, which pd.DataFrame renders as NA. -/
def lookupField (r : RawRecord) (c : String) : Option RawVal := r.lookup c

/-- The keys of one raw item. -/
def recordKeys (r : RawRecord) : List String := r.map Prod.fst

/-- Columns of pd.DataFrame(items): the union of the keys of all
items. -/
def frameCols (rs : List RawRecord) : List String :=
  ((rs.map recordKeys).flatten).dedup

/-- Frame columns beyond the seven named ones.  They are not coerced,
but df.dropna() inspects them all the same. -/
def extraCols (rs : List RawRecord) : List String :=
  (frameCols rs).filter (fun c => !sevenFields.contains c)

/-- Whether the uncoerced cell of a row in one column is non-NA for
df.dropna(): a missing key or a null value is NA, any number or text is
not. -/
def cellNotNA (r : RawRecord) (c : String) : Bool :=
  match lookupField r c with
  | some RawVal.null => false
  | some _ => true
  | none => false

/-- The seven coerced cells of one row, as a Reading; none when
coercion left NA in at least one of the seven columns, that is when any
of the seven conversions fails. -/
def convertRow (r : RawRecord) : Option Reading := do
  let ts ← toDatetime (lookupField r "timestamp")
  let tp ← toNumeric (lookupField r "temperature")
  let hu ← toNumeric (lookupField r "humidity")
  let sm ← toNumeric (lookupField r "soil_moisture")
  let sn ← toNumeric (lookupField r "soil_nitrogen")
  let sp ← toNumeric (lookupField r "soil_phosphorus")
  let sk ← toNumeric (lookupField r "soil_potassium")
  pure { timestamp := ts, temperature := tp, humidity := hu, soil_moisture := sm,
         soil_nitrogen := sn, soil_phosphorus := sp, soil_potassium := sk }

/-- df.dropna() keep-condition on one row: all seven coerced columns
non-NA and every extra column non-NA. -/
def keepRow (extras : List String) (r : RawRecord) : Bool :=
  (convertRow r).isSome && extras.all (fun c => cellNotNA r c)

/-- Ascending-timestamp order on readings. -/
def tsLe (a b : Reading) : Prop := a.timestamp ≤ b.timestamp

instance : DecidableRel tsLe := fun a b => Int.decLe a.timestamp b.timestamp

instance : IsTotal Reading tsLe := ⟨fun a b => Int.le_total a.timestamp b.timestamp⟩

instance : IsTrans Reading tsLe := ⟨fun _ _ _ h1 h2 => le_trans h1 h2⟩

/-- Model of df.sort_values('timestamp') (line 66): the rows reordered
into ascending timestamp order.  pandas' default quicksort promises
only a sorted permutation; insertion sort is the executable stand-in
here, and the tie order it happens to produce is not relied upon. -/
def sortByTimestamp (l : List Reading) : List Reading := List.insertionSort tsLe l

/-- The one error the normalization block itself can raise: selecting a
column name absent from the frame (lines 62-63) raises KeyError. -/
inductive PandasError where
  | keyError (c : String)
deriving DecidableEq, Repr

/-- Shallow embedding of the normalization block, fetch_data lines
53-67: empty scans return an empty frame with the seven columns;
otherwise the frame is built from the items, the six sensor columns
and the timestamp column are coerced (KeyError when one of them exists
in no item), rows holding NA anywhere are dropped, and the survivors
are sorted by ascending timestamp. -/
def normalizeE (rs : List RawRecord) : Except PandasError (List Reading) :=
  if rs.isEmpty then Except.ok []
  else
    match numericCols.find? (fun c => !(frameCols rs).contains c) with
    | some c => Except.error (PandasError.keyError c)
    | none =>
      if !(frameCols rs).contains "timestamp" then
        Except.error (PandasError.keyError "timestamp")
      else
        Except.ok (sortByTimestamp ((rs.filter (keepRow (extraCols rs))).filterMap convertRow))

/-- Outcome of the external collaborators inside fetch_data: a
successful scan with its items, a missing-credentials session (lines
37-39), or an exception during the DynamoDB access (caught on lines
69-71). -/
inductive FetchOutcome where
  | ok (items : List RawRecord)
  | noSession
  | scanError
deriving DecidableEq, Repr

/-- Shallow embedding of fetch_data as a whole: a missing session
returns an empty frame; an exception during the scan, or a KeyError
from the normalization block, is caught on line 69 and also returns an
empty frame; otherwise the normalized rows are returned. -/
def fetch_data : FetchOutcome → List Reading
  | FetchOutcome.ok items =>
    match normalizeE items with
    | Except.ok out => out
    | Except.error _ => []
  | FetchOutcome.noSession => []
  | FetchOutcome.scanError => []

/-- latest_data = df.iloc[-1] (lines 117 and 144): the last row of the
normalized frame, which exists only when the frame is non-empty. -/
def latest_data (df : List Reading) (h : df ≠ []) : Reading := df.getLast h

/-- A fully valid raw item, timestamp text supplied, sensor values
25, 60, 30, 10, 5, 8. -/
def mkRec (ts : String) : RawRecord :=
  [("timestamp", RawVal.text ts), ("temperature", RawVal.num ⟨25, 0⟩),
   ("humidity", RawVal.num ⟨60, 0⟩), ("soil_moisture", RawVal.num ⟨30, 0⟩),
   ("soil_nitrogen", RawVal.num ⟨10, 0⟩), ("soil_phosphorus", RawVal.num ⟨5, 0⟩),
   ("soil_potassium", RawVal.num ⟨8, 0⟩)]

/-- The Reading a valid mkRec item normalizes to, timestamp in epoch
nanoseconds. -/
def mkReading (ts : ℤ) : Reading :=
  ⟨ts, ⟨25, 0⟩, ⟨60, 0⟩, ⟨30, 0⟩, ⟨10, 0⟩, ⟨5, 0⟩, ⟨8, 0⟩⟩

/-- A raw item missing the humidity key entirely. -/
def recNoHumidity : RawRecord :=
  [("timestamp", RawVal.text "2024-01-03T00:00:00"), ("temperature", RawVal.num ⟨25, 0⟩),
   ("soil_moisture", RawVal.num ⟨30, 0⟩), ("soil_nitrogen", RawVal.num ⟨10, 0⟩),
   ("soil_phosphorus", RawVal.num ⟨5, 0⟩), ("soil_potassium", RawVal.num ⟨8, 0⟩)]

/-- A raw item with all seven keys but a non-numeric temperature. -/
def recBadTemp : RawRecord :=
  [("timestamp", RawVal.text "2024-01-01T00:00:00"), ("temperature", RawVal.text "abc"),
   ("humidity", RawVal.num ⟨60, 0⟩), ("soil_moisture", RawVal.num ⟨30, 0⟩),
   ("soil_nitrogen", RawVal.num ⟨10, 0⟩), ("soil_phosphorus", RawVal.num ⟨5, 0⟩),
   ("soil_potassium", RawVal.num ⟨8, 0⟩)]

/-- A fully valid raw item that also carries an extra eighth key. -/
def recWithExtra : RawRecord :=
  mkRec "2024-01-01T00:00:00" ++ [("field_note", RawVal.num ⟨1, 0⟩)]

/-- A fully valid raw item with exactly the seven keys. -/
def recPlain : RawRecord := mkRec "2024-01-02T00:00:00"

/-- One valid item followed by one missing its humidity field. -/
def exC1 : List RawRecord := [mkRec "2024-01-01T00:00:00", recNoHumidity]

/-- An item with an extra ragged key next to a plain valid item. -/
def exC3 : List RawRecord := [recWithExtra, recPlain]

/-- Two valid items with the same timestamp. -/
def exDup : List RawRecord := [mkRec "2024-01-01T00:00:00", mkRec "2024-01-01T00:00:00"]

/-- Two valid items with out-of-order timestamps. -/
def exRev : List RawRecord := [mkRec "2024-01-02T00:00:00", mkRec "2024-01-01T00:00:00"]

/- ------------------------------------------------------------------ -/
/- Helper lemmas                                                      -/
/- ------------------------------------------------------------------ -/

lemma mem_keys_of_lookup_isSome :
    ∀ {r : RawRecord} {c : String}, (lookupField r c).isSome = true → c ∈ recordKeys r := by
  intro r
  induction r with
  | nil => intro c h; simp [lookupField, List.lookup] at h
  | cons p t ih =>
    intro c h
    obtain ⟨k, v⟩ := p
    by_cases hck : c = k
    · simp [recordKeys, hck]
    · have hf : (c == k) = false := beq_eq_false_iff_ne.mpr hck
      simp only [lookupField, List.lookup, hf] at h
      have := ih (by simpa [lookupField] using h)
      simp only [recordKeys, List.map_cons, List.mem_cons]
      exact Or.inr (by simpa [recordKeys] using this)

lemma mem_frameCols {rs : List RawRecord} {r : RawRecord} {c : String}
    (hr : r ∈ rs) (hc : c ∈ recordKeys r) : c ∈ frameCols rs := by
  rw [frameCols, List.mem_dedup, List.mem_flatten]
  exact ⟨recordKeys r, List.mem_map.mpr ⟨r, hr, rfl⟩, hc⟩

/-- Under the stated input domain (every item carries the seven named
keys), the normalization block takes its success branch and returns the
sorted survivors of dropna. -/
lemma normalizeE_ok_of_keys {rs : List RawRecord}
    (hkeys : ∀ r ∈ rs, ∀ c ∈ sevenFields, (lookupField r c).isSome = true) :
    normalizeE rs =
      Except.ok (sortByTimestamp ((rs.filter (keepRow (extraCols rs))).filterMap convertRow)) := by
  by_cases hnil : rs = []
  · subst hnil; rfl
  · obtain ⟨r0, hr0⟩ := List.exists_mem_of_ne_nil rs hnil
    have hcont : ∀ c ∈ sevenFields, (frameCols rs).contains c = true := by
      intro c hc
      have hmem : c ∈ frameCols rs :=
        mem_frameCols hr0 (mem_keys_of_lookup_isSome (hkeys r0 hr0 c hc))
      simpa using hmem
    have hemp : rs.isEmpty = false := by
      simpa using (fun h => hnil (List.isEmpty_iff.mp h) : ¬rs.isEmpty = true)
    have hfind : numericCols.find? (fun c => !(frameCols rs).contains c) = none := by
      rw [List.find?_eq_none]
      intro c hc
      rw [hcont c (by simp [sevenFields, List.mem_cons, hc])]
      simp
    have htime : ((frameCols rs).contains "timestamp") = true :=
      hcont "timestamp" (by simp [sevenFields])
    have hnot : (!(frameCols rs).contains "timestamp") = false := by rw [htime]; rfl
    unfold normalizeE
    rw [hemp, hfind, hnot]
    rfl

lemma normalizeE_ok_eq {rs : List RawRecord} {out : List Reading}
    (h : normalizeE rs = Except.ok out) :
    out = sortByTimestamp ((rs.filter (keepRow (extraCols rs))).filterMap convertRow) := by
  unfold normalizeE at h
  split at h
  · rename_i hemp
    have hnil : rs = [] := List.isEmpty_iff.mp hemp
    subst hnil
    cases h
    rfl
  · split at h
    · exact Except.noConfusion h
    · split at h
      · exact Except.noConfusion h
      · cases h; rfl

lemma sortByTimestamp_sorted (l : List Reading) : (sortByTimestamp l).Sorted tsLe :=
  List.sorted_insertionSort tsLe l

lemma sortByTimestamp_perm (l : List Reading) : (sortByTimestamp l).Perm l :=
  List.perm_insertionSort tsLe l

lemma normalizeE_sorted {rs : List RawRecord} {out : List Reading}
    (h : normalizeE rs = Except.ok out) : out.Sorted tsLe := by
  rw [normalizeE_ok_eq h]
  exact sortByTimestamp_sorted _

lemma mem_le_getLast_of_sorted :
    ∀ (l : List Reading) (hne : l ≠ []), l.Sorted tsLe →
      ∀ x ∈ l, x.timestamp ≤ (l.getLast hne).timestamp := by
  intro l
  induction l with
  | nil => intro hne; exact absurd rfl hne
  | cons a t ih =>
    intro hne hs x hx
    cases t with
    | nil =>
      have hxa : x = a := by simpa using hx
      subst hxa
      simp [List.getLast]
    | cons b t2 =>
      have hne2 : b :: t2 ≠ [] := List.cons_ne_nil b t2
      rw [List.getLast_cons hne2]
      rcases List.mem_cons.mp hx with h | h
      · subst h
        exact (List.pairwise_cons.mp hs).1 _ (List.getLast_mem hne2)
      · exact ih hne2 (List.pairwise_cons.mp hs).2 x h

lemma filterMap_filter_isSome (rs : List RawRecord) :
    (rs.filter (fun r => (convertRow r).isSome)).filterMap convertRow =
      rs.filterMap convertRow := by
  induction rs with
  | nil => rfl
  | cons a t ih =>
    cases hca : convertRow a with
    | none => simp [List.filter_cons, List.filterMap_cons, hca, ih]
    | some b => simp [List.filter_cons, List.filterMap_cons, hca, ih]

lemma extraCols_eq_nil {rs : List RawRecord}
    (hkeys : ∀ r ∈ rs, ∀ c ∈ recordKeys r, c ∈ sevenFields) :
    extraCols rs = [] := by
  rw [extraCols, List.filter_eq_nil_iff]
  intro c hc
  have hc2 : c ∈ (rs.map recordKeys).flatten := List.mem_dedup.mp hc
  obtain ⟨ks, hks, hcks⟩ := List.mem_flatten.mp hc2
  obtain ⟨r, hr, rfl⟩ := List.mem_map.mp hks
  have := hkeys r hr c hcks
  simp [this]

/- ------------------------------------------------------------------ -/
/- Claims                                                             -/
/- ------------------------------------------------------------------ -/

/-- C1: if any of the seven conversions fails for a record (its
convertRow is none), that record is dropped by dropna (keepRow is
false), and the output consists exactly of the converted kept rows, so
nothing derived from the failing record - not even its fields that did
parse - appears in the output. -/
theorem C1_failed_conversion_excludes_record (rs : List RawRecord) (out : List Reading)
    (r : RawRecord) (_hmem : r ∈ rs) (hfail : convertRow r = none)
    (hok : normalizeE rs = Except.ok out) :
    out = sortByTimestamp ((rs.filter (keepRow (extraCols rs))).filterMap convertRow) ∧
      keepRow (extraCols rs) r = false := by
  refine ⟨normalizeE_ok_eq hok, ?_⟩
  simp [keepRow, hfail]

/-- Witness for C1, the spec's own example: one fully valid record
next to one missing its humidity field normalizes to exactly the one
valid Reading, and the defective record is dropped. -/
theorem C1_failed_conversion_excludes_record_witness :
    [mkReading 1704067200000000000] =
        sortByTimestamp ((exC1.filter (keepRow (extraCols exC1))).filterMap convertRow) ∧
      keepRow (extraCols exC1) recNoHumidity = false :=
  C1_failed_conversion_excludes_record exC1 [mkReading 1704067200000000000] recNoHumidity
    (by decide) (by decide) (by rfl)

/-- C3 counterexample: a record whose seven conversions all succeed can
still be dropped.  recPlain has exactly the seven named keys and every
conversion succeeds, but its neighbour recWithExtra introduces an
eighth column field_note into the frame; recPlain holds NA there, so
df.dropna() removes it, and no Reading derived from it appears in the
output even though the input meets the claim's precondition (every
record has at least the seven named keys). -/
theorem C3_counterexample_extra_column :
    (∀ r ∈ exC3, ∀ c ∈ sevenFields, (lookupField r c).isSome = true) ∧
      recPlain ∈ exC3 ∧
      convertRow recPlain = some (mkReading 1704153600000000000) ∧
      normalizeE exC3 = Except.ok [mkReading 1704067200000000000] ∧
      mkReading 1704153600000000000 ∉ [mkReading 1704067200000000000] :=
  ⟨by decide, by decide, by decide, by rfl, by decide⟩

/-- C3 (amended): provided no record carries keys beyond the seven
named fields, every record whose seven conversions succeed yields a
corresponding Reading, and the output is exactly a permutation of the
converted successful records, so duplicate timestamps are all
preserved with no deduplication. -/
theorem C3_amended_all_pass_yield_reading (rs : List RawRecord) (out : List Reading)
    (hkeys : ∀ r ∈ rs, ∀ c ∈ recordKeys r, c ∈ sevenFields)
    (hok : normalizeE rs = Except.ok out) :
    out.Perm (rs.filterMap convertRow) := by
  have he := normalizeE_ok_eq hok
  rw [extraCols_eq_nil hkeys] at he
  have hfe : rs.filter (keepRow []) = rs.filter (fun r => (convertRow r).isSome) :=
    List.filter_congr (fun r _ => by simp [keepRow])
  rw [hfe] at he
  rw [he, ← filterMap_filter_isSome rs]
  exact sortByTimestamp_perm _

/-- Witness for the amended C3: two valid records sharing one
timestamp both survive, duplicates preserved. -/
theorem C3_amended_all_pass_yield_reading_witness :
    List.Perm [mkReading 1704067200000000000, mkReading 1704067200000000000]
      (exDup.filterMap convertRow) :=
  C3_amended_all_pass_yield_reading exDup
    [mkReading 1704067200000000000, mkReading 1704067200000000000] (by decide) (by rfl)

/-- C4 counterexample: a collaborator failure does not propagate and
is not distinguishable from a normal empty result - fetch_data catches
the scan exception (lines 69-71) and the missing-credentials case
(lines 37-39) and returns exactly what an empty successful scan
returns. -/
theorem C4_counterexample_failure_masked :
    fetch_data FetchOutcome.scanError = fetch_data (FetchOutcome.ok []) ∧
      fetch_data FetchOutcome.noSession = fetch_data (FetchOutcome.ok []) :=
  ⟨rfl, rfl⟩

/-- C4 (amended): collaborator failures are swallowed by fetch_data
itself: both failure outcomes are caught, reported to the UI, and
converted into the normal empty result, so nothing propagates to the
caller. -/
theorem C4_amended_failures_swallowed :
    fetch_data FetchOutcome.noSession = [] ∧ fetch_data FetchOutcome.scanError = [] ∧
      fetch_data (FetchOutcome.ok []) = [] :=
  ⟨rfl, rfl, rfl⟩

/-- C5: every successful normalization result is sorted non-decreasing
by timestamp.  The witness instantiates the spec's example: timestamps
2024-01-02 then 2024-01-01 in input order come out with 2024-01-01
first. -/
theorem C5_output_sorted_nondecreasing (rs : List RawRecord) (out : List Reading)
    (hok : normalizeE rs = Except.ok out) : out.Sorted tsLe :=
  normalizeE_sorted hok

/-- Witness for C5 at the spec's reversed-dates example; discharging
the hypothesis evaluates normalizeE on input order 2024-01-02,
2024-01-01 and exhibits the output with 2024-01-01 first. -/
theorem C5_output_sorted_nondecreasing_witness :
    List.Sorted tsLe [mkReading 1704067200000000000, mkReading 1704153600000000000] :=
  C5_output_sorted_nondecreasing exRev
    [mkReading 1704067200000000000, mkReading 1704153600000000000] (by rfl)

/-- C6: on the stated input domain (each record carries at least the
seven named keys), an empty input, or one in which every record fails
some conversion, normalizes to the empty sequence and raises no
error. -/
theorem C6_empty_or_all_failing_yields_empty (rs : List RawRecord)
    (hkeys : ∀ r ∈ rs, ∀ c ∈ sevenFields, (lookupField r c).isSome = true)
    (hfail : rs = [] ∨ ∀ r ∈ rs, convertRow r = none) :
    normalizeE rs = Except.ok [] := by
  rcases hfail with hnil | hfail
  · subst hnil; rfl
  · rw [normalizeE_ok_of_keys hkeys]
    have hfe : rs.filter (keepRow (extraCols rs)) = [] := by
      rw [List.filter_eq_nil_iff]
      intro r hr
      simp [keepRow, hfail r hr]
    rw [hfe]
    rfl

/-- Witness for C6: a single record with all seven keys but a
non-numeric temperature normalizes to the empty sequence. -/
theorem C6_empty_or_all_failing_yields_empty_witness :
    normalizeE [recBadTemp] = Except.ok [] :=
  C6_empty_or_all_failing_yields_empty [recBadTemp] (by decide) (Or.inr (by decide))

/-- C7: normalization is total on the stated input domain - whenever
every record carries the seven named keys, however malformed the
values, the embedding's error branch (the KeyError of lines 62-63) is
unreachable and a normal result is returned. -/
theorem C7_total_on_domain (rs : List RawRecord)
    (hkeys : ∀ r ∈ rs, ∀ c ∈ sevenFields, (lookupField r c).isSome = true) :
    (normalizeE rs).isOk = true := by
  rw [normalizeE_ok_of_keys hkeys]
  rfl

/-- Witness for C7: a malformed record next to a valid one still
produces a normal (non-error) result. -/
theorem C7_total_on_domain_witness :
    (normalizeE [recBadTemp, mkRec "2024-01-01T00:00:00"]).isOk = true :=
  C7_total_on_domain [recBadTemp, mkRec "2024-01-01T00:00:00"] (by decide)

/-- C8: normalization is deterministic - two invocations on the same
input produce identical outputs.  The embedding is a pure function of
the input list, so this holds by construction. -/
theorem C8_deterministic (rs1 rs2 : List RawRecord) (h : rs1 = rs2) :
    normalizeE rs1 = normalizeE rs2 :=
  congrArg normalizeE h

/-- Witness for C8 at a concrete input. -/
theorem C8_deterministic_witness : normalizeE exRev = normalizeE exRev :=
  C8_deterministic exRev exRev rfl

/-- C9: a successful normalization result never has more rows than the
input had records - coercion and dropna only remove rows and the sort
is a permutation. -/
theorem C9_output_no_longer_than_input (rs : List RawRecord) (out : List Reading)
    (hok : normalizeE rs = Except.ok out) : out.length ≤ rs.length := by
  rw [normalizeE_ok_eq hok, (sortByTimestamp_perm _).length_eq]
  exact le_trans (List.length_filterMap_le _ _) (List.length_filter_le _ _)

/-- Witness for C9: two input records, one surviving Reading. -/
theorem C9_output_no_longer_than_input_witness :
    ([mkReading 1704067200000000000] : List Reading).length ≤ exC1.length :=
  C9_output_no_longer_than_input exC1 [mkReading 1704067200000000000] (by rfl)

/-- C10: for every non-empty fetched-and-normalized sequence, the
latest reading used by the summary view and the interpretation prompt
is exactly the last element of the time-ordered sequence, and its
timestamp is maximal among the readings. -/
theorem C10_latest_is_last_and_max (o : FetchOutcome) (out : List Reading)
    (heq : fetch_data o = out) (hne : out ≠ []) :
    latest_data out hne = out.getLast hne ∧
      ∀ x ∈ out, x.timestamp ≤ (latest_data out hne).timestamp := by
  refine ⟨rfl, ?_⟩
  have hs : out.Sorted tsLe := by
    cases o with
    | ok items =>
      simp only [fetch_data] at heq
      split at heq
      · rename_i res hn
        exact heq ▸ normalizeE_sorted hn
      · exact absurd heq.symm hne
    | noSession =>
      simp only [fetch_data] at heq
      exact absurd heq.symm hne
    | scanError =>
      simp only [fetch_data] at heq
      exact absurd heq.symm hne
  exact fun x hx => mem_le_getLast_of_sorted out hne hs x hx

/-- Witness for C10 at a concrete two-row fetch. -/
theorem C10_latest_is_last_and_max_witness :
    latest_data [mkReading 1704067200000000000, mkReading 1704153600000000000]
        (List.cons_ne_nil _ _) =
      ([mkReading 1704067200000000000, mkReading 1704153600000000000]).getLast
        (List.cons_ne_nil _ _) ∧
    ∀ x ∈ [mkReading 1704067200000000000, mkReading 1704153600000000000],
      x.timestamp ≤
        (latest_data [mkReading 1704067200000000000, mkReading 1704153600000000000]
          (List.cons_ne_nil _ _)).timestamp :=
  C10_latest_is_last_and_max (FetchOutcome.ok exRev)
    [mkReading 1704067200000000000, mkReading 1704153600000000000] (by rfl)
    (List.cons_ne_nil _ _)

end AgriMonitor
